import Mathlib

/-!
Shallow embedding of the memory relevance-ranking and retention engine of
the LlamaKeeper backend (`backend/app/utils/memory_manager.py` and
`backend/app/utils/base_memory_manager.py`).

Python floats are modelled as rationals (`ℚ`), dict-valued contexts as
association lists with first-match lookup, the SQLAlchemy-backed store as a
`List Memory`, and the stable Python `sorted` as `List.insertionSort`.
-/

/-- A scalar context value (string / number / boolean), as stored in a
JSON `context` column of a memory or passed in a query context. -/
inductive Scalar
  | str : String → Scalar
  | num : ℚ → Scalar
  | boolean : Bool → Scalar
deriving DecidableEq

/-- A context mapping: string keys to scalar values.  Python dicts have
unique keys; lookup takes the first match. -/
abbrev Ctx := List (String × Scalar)

/-- `key in d and d[key]` lookup on a context mapping. -/
def ctxLookup (c : Ctx) (k : String) : Option Scalar :=
  (c.find? (fun p => p.1 == k)).map (fun p => p.2)

/-- The `Memory` ORM row (`app/models/database.py`): `content` is a string
column, `importance` a float defaulting to 0.5, `context` a nullable JSON
column, `created_at` a timestamp (modelled as seconds). -/
structure Memory where
  id : Nat
  character_id : Nat
  content : String
  importance : ℚ
  context : Option Ctx
  created_at : ℚ
deriving DecidableEq

/-- The context-matching loop of `MemoryManager.calculate_relevance`
(memory_manager.py lines 45-51): for each `(key, value)` of the query
context, add 0.5 when the key is present in the memory context with an
equal value. -/
def contextMatchCount (memCtx : Ctx) (context : Ctx) : Nat :=
  (context.filter (fun kv => ctxLookup memCtx kv.1 == some kv.2)).length

/-- `calculate_relevance` as defined inside
`MemoryManager.retrieve_relevant_memories` (memory_manager.py lines 36-58):
0.5 per matching context key plus the importance of the memory.  No time decay
and no clamping happen on this path. -/
def calculate_relevance (context : Ctx) (memory : Memory) : ℚ :=
  (contextMatchCount (memory.context.getD []) context : ℚ) * (1 / 2)
    + memory.importance

/-- Ordering used for `sorted(memory_scores, key=lambda x: x[1], reverse=True)`:
descending by relevance score (stable). -/
def scoreDesc (context : Ctx) (a b : Memory) : Prop :=
  calculate_relevance context b ≤ calculate_relevance context a

instance (context : Ctx) : DecidableRel (scoreDesc context) :=
  fun a b => inferInstanceAs (Decidable (_ ≤ _))

instance (context : Ctx) : IsTotal Memory (scoreDesc context) :=
  ⟨fun a b => le_total (calculate_relevance context b) (calculate_relevance context a)⟩

instance (context : Ctx) : IsTrans Memory (scoreDesc context) :=
  ⟨fun _ _ _ h1 h2 => le_trans h2 h1⟩

/-- Ordering used for the final
`sorted(..., key on the importance field, reverse=True)`: descending by
importance (stable). -/
def impDesc (a b : Memory) : Prop := b.importance ≤ a.importance

instance : DecidableRel impDesc :=
  fun a b => inferInstanceAs (Decidable (_ ≤ _))

instance : IsTotal Memory impDesc :=
  ⟨fun a b => le_total b.importance a.importance⟩

instance : IsTrans Memory impDesc :=
  ⟨fun _ _ _ h1 h2 => le_trans h2 h1⟩

/-- Python slice `l[:k]` for an `int` `k`: nonnegative `k` keeps the first
`k` elements; negative `k` drops the last `-k` elements. -/
def pySlice (l : List α) (k : Int) : List α :=
  if 0 ≤ k then l.take k.toNat else l.take (l.length - (-k).toNat)

/-- `MemoryManager.retrieve_relevant_memories` (memory_manager.py lines
15-91): select the memories of the character, score each with
`calculate_relevance`, sort descending by score (Python `sorted` is
stable), slice the first `top_k`, then re-sort the selection descending by
importance before returning. -/
def retrieve_relevant_memories (store : List Memory) (character_id : Nat)
    (context : Ctx) (top_k : Int) : List Memory :=
  let memories := store.filter (fun m => m.character_id == character_id)
  let sorted_memories := List.insertionSort (scoreDesc context) memories
  let top_memories := pySlice sorted_memories top_k
  List.insertionSort impDesc top_memories

/-- The clamp `max(0, min(1, importance))` applied on both write paths. -/
def clampImportance (x : ℚ) : ℚ := max 0 (min 1 x)

/-- `MemoryManager.create_memory` (memory_manager.py lines 93-123): builds
the row with clamped importance and `context or {}`, adds and commits it.
`new_id` and `now` stand for the id and `created_at` the database assigns.
No validation of `content` happens on this path. -/
def create_memory (store : List Memory) (new_id : Nat) (now : ℚ)
    (character_id : Nat) (content : String) (importance : ℚ)
    (context : Option Ctx) : List Memory × Memory :=
  let memory : Memory :=
    { id := new_id
      character_id := character_id
      content := content
      importance := clampImportance importance
      context := some (context.getD [])
      created_at := now }
  (store ++ [memory], memory)

/-- The failure `update_memory_importance` raises when `session.get`
returns no row: `ValueError(f"Memory with ID {memory_id} not found")`,
which spec section 7 names `MemoryNotFound`. -/
inductive MemError
  | memoryNotFound : Nat → MemError
deriving DecidableEq

/-- `MemoryManager.update_memory_importance` (memory_manager.py lines
125-139): look the row up by primary key; raise when absent (returning the
store untouched), otherwise overwrite `importance` with the clamped value
and commit. -/
def update_memory_importance (store : List Memory) (memory_id : Nat)
    (new_importance : ℚ) : List Memory × Option MemError :=
  if store.any (fun m => m.id == memory_id) then
    (store.map (fun m =>
      if m.id == memory_id then
        { m with importance := clampImportance new_importance }
      else m), none)
  else
    (store, some (MemError.memoryNotFound memory_id))

/-- Ascending `(importance, created_at)` order used by the eviction query
(`order_by(importance.asc(), created_at.asc())`). -/
def ascImpCreated (a b : Memory) : Prop :=
  a.importance < b.importance
    ∨ (a.importance = b.importance ∧ a.created_at ≤ b.created_at)

instance : DecidableRel ascImpCreated :=
  fun a b => inferInstanceAs (Decidable (_ ∨ _))

instance : IsTotal Memory ascImpCreated := by
  constructor
  intro a b
  rcases lt_trichotomy a.importance b.importance with h | h | h
  · exact Or.inl (Or.inl h)
  · rcases le_total a.created_at b.created_at with h2 | h2
    · exact Or.inl (Or.inr ⟨h, h2⟩)
    · exact Or.inr (Or.inr ⟨h.symm, h2⟩)
  · exact Or.inr (Or.inl h)

instance : IsTrans Memory ascImpCreated := by
  constructor
  intro a b c hab hbc
  rcases hab with h1 | ⟨h1, h1c⟩
  · rcases hbc with h2 | ⟨h2, _⟩
    · exact Or.inl (h1.trans h2)
    · exact Or.inl (h2 ▸ h1)
  · rcases hbc with h2 | ⟨h2, h2c⟩
    · exact Or.inl (h1 ▸ h2)
    · exact Or.inr ⟨h1.trans h2, h1c.trans h2c⟩

/-- `MemoryManager.forget_old_memories` (memory_manager.py lines 141-175):
load the memories of the character sorted ascending by
`(importance, created_at)`, mark for deletion every memory satisfying
`memory.importance < forget_threshold or len(memories) > max_memories`
(note: `len(memories)` is the full per-character count, the same for every
memory of the comprehension), and delete the marked rows. -/
def forget_old_memories (store : List Memory) (character_id : Nat)
    (max_memories : Nat) (forget_threshold : ℚ) : List Memory :=
  let memories := List.insertionSort ascImpCreated
    (store.filter (fun m => m.character_id == character_id))
  let memories_to_forget := memories.filter (fun m =>
    decide (m.importance < forget_threshold) || decide (memories.length > max_memories))
  store.filter (fun m => !(memories_to_forget.any (fun f => f.id == m.id)))

/-- A memory as the dict the abstract `BaseMemoryManager` works on
(base_memory_manager.py): `context`, `importance` and `created_at` are
looked up with `dict.get` and may be absent.  `created_at` is an ISO
timestamp, modelled as seconds. -/
structure MemDict where
  context : Option Ctx
  importance : Option ℚ
  created_at : Option ℚ

/-- `BaseMemoryManager._calculate_memory_relevance` (base_memory_manager.py
lines 78-115): 0.5 per matching query-context key, plus
`memory.get("importance", 0.5)`; when `created_at` is present the sum is
multiplied by `max(0, 1 - age_seconds / (30*24*3600))`; the result is
returned as `min(max(relevance_score, 0), 1)`. -/
def calculate_memory_relevance (memory : MemDict) (context : Ctx)
    (now : ℚ) : ℚ :=
  let memory_context := memory.context.getD []
  let base : ℚ := (contextMatchCount memory_context context : ℚ) * (1 / 2)
  let score := base + memory.importance.getD (1 / 2)
  let score :=
    match memory.created_at with
    | some t => score * max 0 (1 - (now - t) / (30 * 24 * 3600))
    | none => score
  min (max score 0) 1

/-- Python `str.strip()`: the characters of the string with leading and
trailing whitespace removed. -/
def pyStrip (s : String) : List Char :=
  ((s.data.dropWhile Char.isWhitespace).reverse.dropWhile Char.isWhitespace).reverse

/-- `BaseMemoryManager._validate_memory_content` (base_memory_manager.py
lines 117-135): a string is valid exactly when it is non-empty after
stripping whitespace (`len(memory_content.strip()) == 0` fails
validation). -/
def validate_memory_content (memory_content : String) : Bool :=
  !((pyStrip memory_content).length == 0)

/-- The context bonus as spec section 4.2 words it: a fixed bonus of 0.5
for each `(key, value)` pair of the query context whose key exists in the
stored context of the memory with an equal stored value. -/
def specContextScore (memCtx : Ctx) : Ctx → ℚ
  | [] => 0
  | kv :: rest =>
    (if ctxLookup memCtx kv.1 = some kv.2 then (1 : ℚ) / 2 else 0)
      + specContextScore memCtx rest

/-- A memory of character 1 with the given id and importance, empty
context, and `created_at` equal to its id (later ids are younger). -/
def mkTestMemory (i : Nat) (imp : ℚ) : Memory :=
  { id := i, character_id := 1, content := "m", importance := imp,
    context := some [], created_at := (i : ℚ) }

/-- The store of the eviction scenario in spec section 8: one character owning
ten memories with importances 0.0, 0.1, ..., 0.9. -/
def tenMemoryStore : List Memory :=
  [mkTestMemory 0 0, mkTestMemory 1 (1 / 10), mkTestMemory 2 (2 / 10),
    mkTestMemory 3 (3 / 10), mkTestMemory 4 (4 / 10), mkTestMemory 5 (5 / 10),
    mkTestMemory 6 (6 / 10), mkTestMemory 7 (7 / 10), mkTestMemory 8 (8 / 10),
    mkTestMemory 9 (9 / 10)]

/-- A single concrete memory used to instantiate store-level theorems. -/
def memA : Memory :=
  { id := 1, character_id := 1, content := "hello", importance := 1 / 2,
    context := some [], created_at := 0 }

/-- A three-memory store for instantiating the retrieval theorems. -/
def threeMemoryStore : List Memory :=
  [mkTestMemory 1 (1 / 10), mkTestMemory 2 (5 / 10), mkTestMemory 3 (9 / 10)]

/-- A base-manager memory dict with one stored context pair, importance 1,
and a present `created_at`. -/
def memDictFull : MemDict :=
  { context := some [("loc", Scalar.str "forest")], importance := some 1,
    created_at := some 0 }

/-- The one-pair query context `{"loc": "forest"}`. -/
def queryLoc : Ctx := [("loc", Scalar.str "forest")]

/-- A memory whose stored context matches every pair of `queryLoc`. -/
def memFullMatch : Memory :=
  { id := 1, character_id := 1, content := "a", importance := 1 / 2,
    context := some [("loc", Scalar.str "forest")], created_at := 0 }

/-- An otherwise-identical memory with zero matching query-context keys. -/
def memZeroMatch : Memory :=
  { id := 2, character_id := 1, content := "a", importance := 1 / 2,
    context := some [], created_at := 0 }

/-- Clamped importances lie in the unit interval. -/
theorem clampImportance_bounds (x : ℚ) :
    0 ≤ clampImportance x ∧ clampImportance x ≤ 1 := by
  unfold clampImportance
  exact ⟨le_max_left 0 _, max_le (by norm_num) (min_le_left 1 x)⟩

/-- The spec-side context bonus agrees with the code-side match count
scaled by 0.5. -/
theorem specContextScore_eq_matchCount (memCtx q : Ctx) :
    specContextScore memCtx q = (contextMatchCount memCtx q : ℚ) * (1 / 2) := by
  induction q with
  | nil => simp [specContextScore, contextMatchCount]
  | cons kv rest ih =>
    by_cases h : ctxLookup memCtx kv.1 = some kv.2
    · simp only [specContextScore, contextMatchCount, List.filter_cons,
        beq_iff_eq, h, if_pos, ih]
      push_cast [List.length_cons]
      ring
    · simp only [specContextScore, contextMatchCount, List.filter_cons,
        beq_iff_eq, h, if_neg, ih]
      simp [contextMatchCount, h]

/-- C1: the claim says `forget_old_memories(character_id, 5, 0.3)` on a
character with ten memories of importances 0.0, 0.1, ..., 0.9 removes
exactly the memories below the threshold and then only enough further
memories to reach the cap, leaving exactly five memories of importance at
least 0.3.  The code instead tests `len(memories) > max_memories` — a
per-call constant — inside the per-memory comprehension, so once the count
exceeds the cap every memory is marked and all ten are deleted, even
though at least five memories of importance at least 0.3 qualify to
stay. -/
theorem C1_forget_deletes_all_at_claimed_input :
    forget_old_memories tenMemoryStore 1 5 (3 / 10) = []
      ∧ 5 ≤ (tenMemoryStore.filter
          (fun m => decide ((3 : ℚ) / 10 ≤ m.importance))).length := by
  constructor
  · norm_num [forget_old_memories, tenMemoryStore, mkTestMemory,
      List.insertionSort, List.orderedInsert, ascImpCreated]
  · norm_num [tenMemoryStore, mkTestMemory, List.filter]

/-- C2: the claim says `create_memory` with whitespace-only content fails
with `InvalidMemoryContent` and persists nothing.  `MemoryManager.create_memory`
performs no content validation at all: with `content = ""` it persists the
row and reports no error, even though the repository-local
`BaseMemoryManager._validate_memory_content` classifies `""` and `"   "`
as invalid. -/
theorem C2_create_memory_persists_empty_content :
    (create_memory [] 1 0 1 "" (1 / 2) none).1 =
      [{ id := 1, character_id := 1, content := "", importance := 1 / 2,
          context := some [], created_at := 0 }]
      ∧ validate_memory_content "" = false
      ∧ validate_memory_content "   " = false := by
  refine ⟨?_, by decide, by decide⟩
  norm_num [create_memory, clampImportance]

/-- C3 counterexample: the claim says the computed relevance equals
`(0.5 * matches + importance) * decay` outright.  On a memory with one
matching context key, importance 1 and age 0, that formula yields 1.5,
but `_calculate_memory_relevance` returns 1 because it clamps the result
into [0, 1]. -/
theorem C3_unclamped_formula_counterexample :
    (specContextScore [("loc", Scalar.str "forest")] queryLoc + 1)
        * max 0 (1 - ((0 : ℚ) - 0) / (30 * 24 * 3600)) = 3 / 2
      ∧ calculate_memory_relevance memDictFull queryLoc 0 = 1 := by
  constructor
  · norm_num [specContextScore, queryLoc, ctxLookup, List.find?]
  · norm_num [calculate_memory_relevance, memDictFull, queryLoc,
      contextMatchCount, ctxLookup, List.find?, List.filter]

/-- C3 (amended): `_calculate_memory_relevance` computes the raw score
0.5-per-matching-key plus importance (defaulting to 0.5), multiplies it by
the linear decay factor `max(0, 1 - age_seconds / (30*24*3600))` when
`created_at` is present and skips the decay when it is absent, and in both
cases finally clamps the result into [0, 1] via `min(max(score, 0), 1)`. -/
theorem C3_relevance_is_clamped_decayed_score (memory : MemDict)
    (context : Ctx) (now : ℚ) :
    calculate_memory_relevance memory context now =
      match memory.created_at with
      | some t =>
          min (max ((specContextScore (memory.context.getD []) context
                + memory.importance.getD (1 / 2))
              * max 0 (1 - (now - t) / (30 * 24 * 3600))) 0) 1
      | none =>
          min (max (specContextScore (memory.context.getD []) context
              + memory.importance.getD (1 / 2)) 0) 1 := by
  simp only [specContextScore_eq_matchCount]
  unfold calculate_memory_relevance
  cases h : memory.created_at <;> simp only [h]

/-- C4: whatever the store, character, query context and `top_k`, the list
returned by `retrieve_relevant_memories` is sorted in descending order of
the `importance` field, because the selected top-k entries are re-sorted
by importance just before being returned. -/
theorem C4_output_sorted_by_descending_importance (store : List Memory)
    (character_id : Nat) (context : Ctx) (top_k : Int) :
    (retrieve_relevant_memories store character_id context top_k).Sorted
      (fun a b => b.importance ≤ a.importance) := by
  exact List.sorted_insertionSort impDesc _

/-- C5: after either write operation the stored importance lies in
[0, 1]: `create_memory` persists `max(0, min(1, importance))`, and
`update_memory_importance` overwrites the targeted record with
`max(0, min(1, new_importance))`; in particular importance 1.5 persists as
1.0 and importance -0.3 persists as 0.0 on both paths. -/
theorem C5_importance_clamped_on_write :
    (∀ (store : List Memory) (new_id : Nat) (now : ℚ) (character_id : Nat)
        (content : String) (importance : ℚ) (context : Option Ctx),
        0 ≤ (create_memory store new_id now character_id content importance
            context).2.importance
          ∧ (create_memory store new_id now character_id content importance
            context).2.importance ≤ 1)
    ∧ (∀ (store : List Memory) (memory_id : Nat) (new_importance : ℚ)
        (m : Memory),
        m ∈ (update_memory_importance store memory_id new_importance).1 →
        m.id = memory_id → 0 ≤ m.importance ∧ m.importance ≤ 1)
    ∧ (create_memory [] 1 0 1 "c" (3 / 2) none).2.importance = 1
    ∧ (create_memory [] 1 0 1 "c" (-(3 / 10)) none).2.importance = 0
    ∧ (update_memory_importance [memA] 1 (3 / 2)).1.map Memory.importance = [1]
    ∧ (update_memory_importance [memA] 1 (-(3 / 10))).1.map Memory.importance
        = [0] := by
  refine ⟨?_, ?_, ?_, ?_, ?_, ?_⟩
  · intro store new_id now character_id content importance context
    exact clampImportance_bounds importance
  · intro store memory_id new_importance m hm hid
    unfold update_memory_importance at hm
    split at hm
    · rw [List.mem_map] at hm
      obtain ⟨m0, _, rfl⟩ := hm
      by_cases hb : m0.id == memory_id
      · simp only [hb, if_pos]
        exact clampImportance_bounds new_importance
      · simp only [hb, if_neg, Bool.false_eq_true, not_false_iff] at hid ⊢
        exact absurd hid (by simpa using hb)
    · rename_i hany
      rw [List.any_eq_true] at hany
      exact absurd ⟨m, hm, by simp [hid]⟩ hany
  · norm_num [create_memory, clampImportance]
  · norm_num [create_memory, clampImportance]
  · norm_num [update_memory_importance, memA, clampImportance]
  · norm_num [update_memory_importance, memA, clampImportance]

/-- Witness for C5: the record written by a concrete out-of-range update
carries an importance inside [0, 1]. -/
theorem C5_importance_clamped_on_write_witness :
    0 ≤ ({ memA with importance := clampImportance (3 / 2) } : Memory).importance
      ∧ ({ memA with importance := clampImportance (3 / 2) } : Memory).importance
          ≤ 1 :=
  C5_importance_clamped_on_write.2.1 [memA] 1 (3 / 2)
    { memA with importance := clampImportance (3 / 2) }
    (by simp [update_memory_importance, memA]) rfl

/-- C6: when no stored memory carries the requested id,
`update_memory_importance` fails with the memory-not-found error (the
`ValueError` spec section 7 calls `MemoryNotFound`) and returns the store
unchanged. -/
theorem C6_update_nonexistent_fails_memoryNotFound (store : List Memory)
    (memory_id : Nat) (new_importance : ℚ)
    (h : ∀ m ∈ store, m.id ≠ memory_id) :
    update_memory_importance store memory_id new_importance =
      (store, some (MemError.memoryNotFound memory_id)) := by
  unfold update_memory_importance
  rw [if_neg]
  rw [List.any_eq_true]
  rintro ⟨m, hm, hid⟩
  exact h m hm (by simpa using hid)

/-- Witness for C6 on a one-memory store and a missing id. -/
theorem C6_update_nonexistent_fails_memoryNotFound_witness :
    update_memory_importance [memA] 99 (9 / 10) =
      ([memA], some (MemError.memoryNotFound 99)) :=
  C6_update_nonexistent_fails_memoryNotFound [memA] 99 (9 / 10)
    (by intro m hm; rw [List.mem_singleton] at hm; subst hm; decide)

/-- C7: for nonnegative `top_k`, `retrieve_relevant_memories` returns at
most `top_k` items, and when the character owns fewer than `top_k`
memories it returns exactly all of them (a permutation of the memory list of the character). -/
theorem C7_retrieve_top_k_bounds (store : List Memory) (character_id : Nat)
    (context : Ctx) (top_k : Int) (h : 0 ≤ top_k) :
    (retrieve_relevant_memories store character_id context top_k).length
        ≤ top_k.toNat
    ∧ ((store.filter (fun m => m.character_id == character_id)).length
          < top_k.toNat →
        (retrieve_relevant_memories store character_id context top_k).Perm
          (store.filter (fun m => m.character_id == character_id))) := by
  simp only [retrieve_relevant_memories, pySlice]
  rw [if_pos h]
  constructor
  · rw [List.length_insertionSort, List.length_take]
    exact min_le_left _ _
  · intro hlt
    rw [List.take_of_length_le]
    · exact (List.perm_insertionSort impDesc _).trans
        (List.perm_insertionSort (scoreDesc context) _)
    · rw [List.length_insertionSort]
      exact le_of_lt hlt

/-- Witness for C7 with three memories and `top_k = 2`. -/
theorem C7_retrieve_top_k_bounds_witness :
    (retrieve_relevant_memories threeMemoryStore 1 [] 2).length
      ≤ (2 : Int).toNat :=
  (C7_retrieve_top_k_bounds threeMemoryStore 1 [] 2 (by decide)).1

/-- C8: for two memories with identical stored context and identical
creation time, the one with the higher (or equal) importance receives a
relevance score at least as high under the scoring function used by
`retrieve_relevant_memories`. -/
theorem C8_higher_importance_scores_geq (context : Ctx) (a b : Memory)
    (hctx : a.context = b.context) (htime : a.created_at = b.created_at)
    (himp : b.importance ≤ a.importance) :
    calculate_relevance context b ≤ calculate_relevance context a := by
  unfold calculate_relevance
  rw [hctx]
  exact add_le_add_left himp _

/-- Witness for C8 on two memories sharing context and creation time. -/
theorem C8_higher_importance_scores_geq_witness :
    calculate_relevance queryLoc memZeroMatch
      ≤ calculate_relevance queryLoc
          { memZeroMatch with importance := 9 / 10 } :=
  C8_higher_importance_scores_geq queryLoc
    { memZeroMatch with importance := 9 / 10 } memZeroMatch rfl rfl
    (by norm_num [memZeroMatch])

/-- C9: for a non-empty query context and two memories of identical
importance and creation time, a memory whose stored context matches every
(key, value) pair of the query scores strictly higher than one with zero
matching keys. -/
theorem C9_full_match_scores_strictly_higher (context : Ctx)
    (a b : Memory) (hne : context ≠ [])
    (himp : a.importance = b.importance) (htime : a.created_at = b.created_at)
    (hfull : ∀ kv ∈ context, ctxLookup (a.context.getD []) kv.1 = some kv.2)
    (hzero : contextMatchCount (b.context.getD []) context = 0) :
    calculate_relevance context b < calculate_relevance context a := by
  unfold calculate_relevance
  rw [hzero, himp]
  have hall : contextMatchCount (a.context.getD []) context = context.length := by
    unfold contextMatchCount
    rw [List.filter_eq_self.mpr]
    intro kv hkv
    simpa using hfull kv hkv
  rw [hall]
  have hpos : 0 < context.length := List.length_pos.mpr hne
  have hq : (1 : ℚ) ≤ (context.length : ℚ) := by exact_mod_cast hpos
  nlinarith

/-- Witness for C9: a fully-matching memory beats a zero-match one. -/
theorem C9_full_match_scores_strictly_higher_witness :
    calculate_relevance queryLoc memZeroMatch
      < calculate_relevance queryLoc memFullMatch :=
  C9_full_match_scores_strictly_higher queryLoc memFullMatch memZeroMatch
    (by decide) rfl rfl (by decide) (by decide)

/-- C10: with `top_k = 0` the retrieval returns the empty list, and with a
negative `top_k = -m` it returns `max(0, n - m)` items (Python slice
semantics drop the last `m` entries of the score-ranked sequence), where
`n` is the number of memories the character owns. -/
theorem C10_retrieve_slice_semantics (store : List Memory)
    (character_id : Nat) (context : Ctx) :
    retrieve_relevant_memories store character_id context 0 = []
    ∧ ∀ m : Nat, 0 < m →
        (retrieve_relevant_memories store character_id context
            (-(m : Int))).length
          = (store.filter
              (fun mem => mem.character_id == character_id)).length - m := by
  constructor
  · simp [retrieve_relevant_memories, pySlice]
  · intro m hm
    simp only [retrieve_relevant_memories, pySlice]
    rw [if_neg (show ¬ (0 ≤ -(m : Int)) by omega)]
    rw [List.length_insertionSort, List.length_take, List.length_insertionSort]
    omega

/-- Witness for C10: dropping the last entry of a three-memory character
leaves two items. -/
theorem C10_retrieve_slice_semantics_witness :
    (retrieve_relevant_memories threeMemoryStore 1 [] (-((1 : Nat) : Int))).length
      = (threeMemoryStore.filter
          (fun mem => mem.character_id == 1)).length - 1 :=
  (C10_retrieve_slice_semantics threeMemoryStore 1 []).2 1 (by decide)
